import Mathlib

/-!
Shallow embedding of the avalon-rs chat/assignment server.

`Avalon.Game` embeds `src/game.rs`: roles, alliances, the fixed role pool,
`deal`, `Assignment` and the per-role visibility computation.  The
thread-local RNG shuffle is modelled by an explicit `shuffle` parameter;
theorems that depend on randomness assume only that `shuffle` returns a
permutation of its input, exactly what `slice::shuffle` guarantees.
-/

namespace Avalon

inductive Role where
  | Assassin
  | Merlin
  | Mordred
  | Morgana
  | Oberon
  | Percival
  | Loyal
  deriving DecidableEq, Repr

inductive Alliance where
  | Resistance
  | Spy
  deriving DecidableEq, Repr

def Role.alliance : Role → Alliance
  | .Merlin | .Percival | .Loyal => Alliance.Resistance
  | .Assassin | .Mordred | .Morgana | .Oberon => Alliance.Spy

def Role.name : Role → String
  | .Assassin => "刺客"
  | .Merlin => "梅林"
  | .Mordred => "莫德雷德"
  | .Morgana => "莫甘娜"
  | .Oberon => "奥伯伦"
  | .Percival => "派西维尔"
  | .Loyal => "忠臣"

/-- Embeds `enum SeeingBy` from `game.rs`. -/
inductive SeeingBy where
  | Normal
  | Spy (spies : List (Nat × String))
  | Merlin (resistances spies : List (Nat × String))
  | Percival (merlinList : List (Nat × String))
  deriving DecidableEq, Repr

/-- Embeds `SeeingBy::text_with_formatter` (itertools `join` is
`String.intercalate`). -/
def SeeingBy.text_with_formatter (sb : SeeingBy) (f : Nat × String → String) : String :=
  match sb with
  | .Normal => ""
  | .Spy spies => String.intercalate "、" (spies.map f) ++ " 都是坏人"
  | .Merlin resistances spies =>
      String.intercalate "、" (resistances.map f) ++ " 都是好人\n" ++
        (String.intercalate "、" (spies.map f) ++ " 都是坏人")
  | .Percival merlinList =>
      String.intercalate " 和 " (merlinList.map f) ++ " 当中有一个是梅林，另一个是莫甘娜"

/-- Embeds `SeeingBy::text`. -/
def SeeingBy.text (sb : SeeingBy) : String :=
  sb.text_with_formatter (fun p => p.2)

/-- Embeds `SeeingBy::text_from_player`. -/
def SeeingBy.text_from_player (sb : SeeingBy) (id : Nat) : String :=
  sb.text_with_formatter (fun p => if p.1 = id then "你" else p.2)

structure Assignment where
  players : List (String × Role)
  deriving DecidableEq, Repr

/-- Embeds the body of `Assignment::filter_players`:
`enumerate().filter_map(...)`, with `i` the index of the head of the
remaining list. -/
def filterSeats (f : Role → Bool) : Nat → List (String × Role) → List (Nat × String)
  | _, [] => []
  | i, (nm, role) :: rest =>
      if f role then (i, nm) :: filterSeats f (i + 1) rest
      else filterSeats f (i + 1) rest

def Assignment.filter_players (a : Assignment) (f : Role → Bool) : List (Nat × String) :=
  filterSeats f 0 a.players

/-- Embeds `Assignment::see_from_role`. -/
def Assignment.see_from_role (a : Assignment) (role : Role) : SeeingBy :=
  match role with
  | .Assassin | .Morgana | .Mordred =>
      SeeingBy.Spy
        (a.filter_players
          (fun r => decide (r.alliance = Alliance.Spy ∧ r ≠ Role.Oberon)))
  | .Merlin =>
      SeeingBy.Merlin
        (a.filter_players
          (fun r => decide (¬(r.alliance = Alliance.Spy ∧ r ≠ Role.Mordred))))
        (a.filter_players
          (fun r => decide (r.alliance = Alliance.Spy ∧ r ≠ Role.Mordred)))
  | .Percival =>
      SeeingBy.Percival
        (a.filter_players
          (fun r => match r with | .Merlin | .Morgana => true | _ => false))
  | .Oberon | .Loyal => SeeingBy.Normal

def Assignment.player_number (a : Assignment) : Nat :=
  a.players.length

def Assignment.get_player (a : Assignment) (index : Nat) : Option (String × Role) :=
  a.players.get? index

def LOWER_ROOM_SIZE : Nat := 5

/-- The fixed, order-significant role pool `ROLES` from `game.rs`. -/
def ROLES : List Role :=
  [.Merlin, .Assassin, .Percival, .Morgana, .Loyal, .Loyal, .Oberon, .Loyal, .Loyal, .Mordred]

def UPPER_ROOM_SIZE : Nat := ROLES.length

/-- Embeds `deal`.  The `shuffle` parameter stands for the RNG-driven
`roles.shuffle(&mut rng)`; the source guarantees it permutes the slice in
place, so theorems assume `∀ l, shuffle l ~ l`. -/
def deal (shuffle : List Role → List Role) (number : Nat) : Except String (List Role) :=
  if number < LOWER_ROOM_SIZE ∨ number > UPPER_ROOM_SIZE then
    Except.error ("invalid player number: " ++ toString number)
  else
    Except.ok (shuffle (ROLES.take number))

/-- Embeds `Assignment::new`: zips the collected names with `deal`'s result,
propagating `deal`'s error. -/
def Assignment.new (shuffle : List Role → List Role) (names : List String) :
    Except String Assignment :=
  match deal shuffle names.length with
  | .error e => .error e
  | .ok roles => .ok ⟨names.zip roles⟩

/-!
Session command layer, embedding the `ws::Message::Text` arm of
`session.rs`.  A trimmed line starting with `/` is split once on the first
space (`splitn(2, ' ')`) and dispatched on the verb.  `size.parse::<u8>()`
is embedded by `parseU8`.
-/

/-- Embeds Rust `str::parse::<u8>`: an optional leading `+`, then a
nonempty run of ASCII digits, with the value required to fit in `u8`. -/
def parseU8 (s : String) : Option Nat :=
  let ds := match s.data with
    | '+' :: rest => rest
    | cs => cs
  if !ds.isEmpty && ds.all Char.isDigit then
    let v := ds.foldl (fun a c => a * 10 + (c.toNat - 48)) 0
    if v ≤ 255 then some v else none
  else none

/-- Split a character list at the first occurrence of `sep`. -/
def splitFirst (sep : Char) : List Char → List Char × Option (List Char)
  | [] => ([], none)
  | c :: cs =>
    if c = sep then ([], some cs)
    else
      let (a, b) := splitFirst sep cs
      (c :: a, b)

/-- Embeds `m.splitn(2, ' ').collect::<Vec<_>>()`. -/
def splitn2 (s : String) : List String :=
  match splitFirst ' ' s.data with
  | (a, none) => [String.mk a]
  | (a, some b) => [String.mk a, String.mk b]

/-- Effects of the session's text handler: a reply to its own client, or a
structured request forwarded to the coordinator. -/
inductive SessOut where
  | reply (text : String)
  | sendListRooms
  | sendJoin (roomName : String) (sessionName : String)
  | sendCreate (size : Nat) (sessionName : String)
  deriving DecidableEq, Repr

/-- Embeds the `match v[0]` dispatch of `session.rs`; `m` is the whole
trimmed line (used by the unknown-command format), `v = splitn2 m`.
Returns the possibly-updated display name and the emitted effects. -/
def handleCommand (name : Option String) (m : String) (v : List String) :
    Option String × List SessOut :=
  match v with
  | [] => (name, [])
  | cmd :: args =>
    if cmd = "/list" then (name, [SessOut.sendListRooms])
    else if cmd = "/join" then
      match name with
      | none => (name, [SessOut.reply "!!! session name is required"])
      | some sessionName =>
        match args with
        | [rn] => (name, [SessOut.sendJoin rn sessionName])
        | [] => (name, [SessOut.reply "!!! room name is required"])
        | _ :: _ :: _ => (name, [SessOut.reply "!!! unknown command"])
    else if cmd = "/create" then
      match name with
      | none => (name, [SessOut.reply "!!! session name is required"])
      | some sessionName =>
        match args with
        | [szs] =>
          (name,
            match parseU8 szs with
            | some size =>
              if LOWER_ROOM_SIZE ≤ size ∧ size ≤ UPPER_ROOM_SIZE then
                [SessOut.sendCreate size sessionName]
              else
                [SessOut.reply ("!!! room size " ++ toString size ++
                  " is not supported. it should be in range " ++
                  toString LOWER_ROOM_SIZE ++ "-" ++ toString UPPER_ROOM_SIZE)]
            | none => [SessOut.reply ("!!! invalid room size: " ++ szs)])
        | [] => (name, [SessOut.reply "!!! size is required"])
        | _ :: _ :: _ => (name, [SessOut.reply "!!! unknown command"])
    else if cmd = "/name" then
      match args with
      | [nm] => (some nm, [])
      | [] => (name, [SessOut.reply "!!! name is required"])
      | _ :: _ :: _ => (name, [SessOut.reply "!!! unknown command"])
    else (name, [SessOut.reply ("!!! unknown command: " ++ reprStr m)])

/-- Embeds the text arm: lines not starting with `/` are unknown commands,
the rest go through `splitn(2, ' ')` and the verb dispatch. -/
def handleLine (name : Option String) (m : String) : Option String × List SessOut :=
  if m.data.head? = some '/' then handleCommand name m (splitn2 m)
  else (name, [SessOut.reply ("!!! unknown command: " ++ reprStr m)])

/-!
Coordinator model, embedding `server.rs`.  `ChatServer.sessions` keeps the
ids registered in the session map (the `Recipient` channels carry no
information the claims need); `rooms` models the `BTreeMap<String, Room>`
as an association list.  Every outbound `do_send` becomes an `Event`
`(recipient id, text)` in emission order.
-/

abbrev Event := Nat × String

structure Room where
  sessions : List Nat
  size : Nat
  seats : List (Nat × String)
  deriving DecidableEq, Repr

/-- Embeds `Room::is_full`. -/
def Room.is_full (r : Room) : Bool :=
  r.sessions.length == r.size

structure ChatServer where
  sessions : List Nat
  rooms : List (String × Room)
  deriving DecidableEq, Repr

def lookupRoom (rooms : List (String × Room)) (n : String) : Option Room :=
  (rooms.find? (fun p => decide (p.1 = n))).map (fun p => p.2)

def updateRoom (rooms : List (String × Room)) (n : String) (r : Room) :
    List (String × Room) :=
  rooms.map (fun p => if p.1 = n then (n, r) else p)

def eraseRoom (rooms : List (String × Room)) (n : String) : List (String × Room) :=
  rooms.filter (fun p => decide (p.1 ≠ n))

/-- `BTreeSet::insert`: add the id when absent. -/
def insertSet (id : Nat) (l : List Nat) : List Nat :=
  if id ∈ l then l else l ++ [id]

/-- Embeds `ChatServer::send_message_to_user`: the message is delivered
only when the id is present in the session map. -/
def ChatServer.send_message_to_user (s : ChatServer) (id : Nat) (msg : String) :
    List Event :=
  if id ∈ s.sessions then [(id, msg)] else []

/-- Embeds `ChatServer::broadcast_message`: every member of the room other
than `skip` that is registered in the session map receives `msg`. -/
def ChatServer.broadcast_message (s : ChatServer) (room : String) (msg : String)
    (skip : Nat) : List Event :=
  match lookupRoom s.rooms room with
  | none => []
  | some r =>
    r.sessions.filterMap (fun i =>
      if i ≠ skip ∧ i ∈ s.sessions then some (i, msg) else none)

/-- One room's share of the disconnect cascade: drop the id from the member
set and from the seat list. -/
def removeFromRoom (r : Room) (id : Nat) : Room :=
  { r with sessions := r.sessions.erase id,
           seats := r.seats.filter (fun p => decide (p.1 ≠ id)) }

/-- Embeds `ChatServer::remove_user_from_all_rooms`: strip the id from
every room, delete rooms it left empty, then broadcast the departure
notice (against the cleaned map, skip id 0) to each room it was in. -/
def ChatServer.remove_user_from_all_rooms (s : ChatServer) (id : Nat) :
    ChatServer × List Event :=
  let removedRooms :=
    (s.rooms.filter (fun p => decide (id ∈ p.2.sessions))).map (fun p => p.1)
  let emptyRooms : List String :=
    (s.rooms.filter (fun p =>
      decide (id ∈ p.2.sessions) && decide ((removeFromRoom p.2 id).sessions = []))).map
      (fun p => p.1)
  let rooms1 := s.rooms.map (fun p =>
    if id ∈ p.2.sessions then (p.1, removeFromRoom p.2 id) else p)
  let rooms2 := rooms1.filter (fun p => decide (p.1 ∉ emptyRooms))
  let s1 : ChatServer := { s with rooms := rooms2 }
  (s1, (removedRooms.map
    (fun rn => s1.broadcast_message rn "Someone disconnected" 0)).flatten)

/-- The visibility text a seat receives, as sent by
`ChatServer::assign_and_notify`: the rendered view, or the explicit
no-information line when the rendered text is empty. -/
def revealHint (sb : SeeingBy) (viewer : Nat) : String :=
  let t := sb.text_from_player viewer
  if t = "" then "你没有提示" else t

/-- The per-seat reveal messages of `ChatServer::assign_and_notify`, in
seat order: each seat's session gets its role line, then its visibility
text (or the no-information line when that text is empty). -/
def perSeatEvents (s : ChatServer) (seats : List (Nat × String)) (a : Assignment) :
    List Event :=
  ((seats.zip a.players).enum.map (fun p =>
    let seatNo := p.1
    let id := p.2.1.1
    let role := p.2.2.2
    s.send_message_to_user id ("你的身份是【" ++ role.name ++ "】，") ++
      s.send_message_to_user id (revealHint (a.see_from_role role) seatNo))).flatten

/-- Embeds `ChatServer::assign_and_notify`: deal over the room's seat
names; on success emit the per-seat reveal events, on failure propagate
the error (no events were sent before the `?`). -/
def ChatServer.assign_and_notify (s : ChatServer) (shuffle : List Role → List Role)
    (room : String) : Except String (List Event) :=
  match lookupRoom s.rooms room with
  | none => Except.ok []
  | some r =>
    match Assignment.new shuffle (r.seats.map (fun p => p.2)) with
    | .error e => .error e
    | .ok a => .ok (perSeatEvents s r.seats a)

/-- Embeds `Handler<Connect>`: register the (rng-chosen) id. -/
def ChatServer.handleConnect (s : ChatServer) (id : Nat) : ChatServer :=
  { s with sessions := if id ∈ s.sessions then s.sessions else s.sessions ++ [id] }

/-- Embeds `Handler<Disconnect>`: only a registered id triggers the
room cascade. -/
def ChatServer.handleDisconnect (s : ChatServer) (id : Nat) : ChatServer × List Event :=
  if id ∈ s.sessions then
    ChatServer.remove_user_from_all_rooms { s with sessions := s.sessions.erase id } id
  else (s, [])

/-- The room as `Handler<Join>` mutates it: the joiner inserted in the
member set, its `(id, name)` seat appended. -/
def joinedRoom (room : Room) (id : Nat) (sessionName : String) : Room :=
  { room with sessions := insertSet id room.sessions,
              seats := room.seats ++ [(id, sessionName)] }

/-- Embeds `Handler<Join>`. -/
def ChatServer.handleJoin (s : ChatServer) (shuffle : List Role → List Role)
    (id : Nat) (sessionName : String) (name : String) : ChatServer × List Event :=
  if lookupRoom s.rooms name = none then
    (s, s.send_message_to_user id "!!! room not exist")
  else
    let p1 := s.remove_user_from_all_rooms id
    let s1 := p1.1
    let evs1 := p1.2
    match lookupRoom s1.rooms name with
    | none =>
      (s1, evs1 ++ s1.send_message_to_user id "!!! room not exist, may be deleted just now")
    | some room =>
      let room' : Room := joinedRoom room id sessionName
      let isFull := room'.is_full
      let s2 : ChatServer := { s1 with rooms := updateRoom s1.rooms name room' }
      let evs2 := s2.broadcast_message name (sessionName ++ " connected") id
      let evs3 := s2.send_message_to_user id "joined"
      if isFull then
        let evs4 := s2.broadcast_message name "人已经凑齐" 0
        match s2.assign_and_notify shuffle name with
        | .ok aevs =>
          ({ s2 with rooms := eraseRoom s2.rooms name },
            evs1 ++ evs2 ++ evs3 ++ evs4 ++ aevs)
        | .error e =>
          ({ s2 with rooms := eraseRoom s2.rooms name },
            evs1 ++ evs2 ++ evs3 ++ evs4 ++
              s2.broadcast_message name ("分配失败：" ++ e) 0)
      else (s2, evs1 ++ evs2 ++ evs3)

/-- Embeds `Handler<Create>`; `oracle` stands for `rng.gen_range(0, 1000)`. -/
def ChatServer.handleCreate (s : ChatServer) (id : Nat) (sessionName : String)
    (size : Nat) (oracle : Nat) : ChatServer × List Event :=
  let name := toString (oracle % 1000)
  if (lookupRoom s.rooms name).isSome then
    (s, s.send_message_to_user id "!!! create room failed")
  else
    let p1 := s.remove_user_from_all_rooms id
    let s1 := p1.1
    let evs1 := p1.2
    let evs2 := s1.send_message_to_user id ("room " ++ name ++ " created.")
    let evs3 := s1.send_message_to_user id "请把房间号告诉你的小伙伴们"
    ({ s1 with rooms := s1.rooms ++ [(name, ⟨[id], size, [(id, sessionName)]⟩)] },
      evs1 ++ evs2 ++ evs3)

/-- Embeds `Handler<ListRooms>`. -/
def ChatServer.listRooms (s : ChatServer) : List String :=
  s.rooms.map (fun p => p.1)

/-- Coordinator messages; `connect`'s id and `create`'s `oracle` are the
values the thread-local RNG produced. -/
inductive Msg where
  | connect (id : Nat)
  | disconnect (id : Nat)
  | listRooms
  | join (id : Nat) (sessionName : String) (roomName : String)
  | create (id : Nat) (sessionName : String) (size : Nat) (oracle : Nat)
  deriving DecidableEq, Repr

/-- One coordinator dispatch (the actor mailbox serializes these). -/
def step (shuffle : List Role → List Role) (s : ChatServer) : Msg → ChatServer × List Event
  | .connect id => (s.handleConnect id, [])
  | .disconnect id => s.handleDisconnect id
  | .listRooms => (s, [])
  | .join id nm rn => s.handleJoin shuffle id nm rn
  | .create id nm sz o => s.handleCreate id nm sz o

/-- `ChatServer::default()`. -/
def initialServer : ChatServer := ⟨[], []⟩

/-- The coordinator state after processing a message sequence from the
initial state. -/
def run (shuffle : List Role → List Role) (msgs : List Msg) : ChatServer :=
  msgs.foldl (fun s m => (step shuffle s m).1) initialServer

/-!
Statement-level helpers and concrete instances used by the theorems.
-/

/-- Replace an entry's display name by the self token when its seat is the
viewer's own seat, leaving other entries unchanged. -/
def substEntry (viewer : Nat) (p : Nat × String) : Nat × String :=
  (p.1, if p.1 = viewer then "你" else p.2)

/-- Map a function over every `(seat, name)` entry of a view. -/
def SeeingBy.mapEntries (g : Nat × String → Nat × String) : SeeingBy → SeeingBy
  | .Normal => .Normal
  | .Spy spies => .Spy (spies.map g)
  | .Merlin resistances spies => .Merlin (resistances.map g) (spies.map g)
  | .Percival merlinList => .Percival (merlinList.map g)

/-- The per-room invariant the spec states for the coordinator. -/
def RoomInv (r : Room) : Prop :=
  r.sessions.length = r.seats.length ∧
  (∀ i, i ∈ r.sessions ↔ i ∈ r.seats.map Prod.fst) ∧
  r.sessions.length ≤ r.size

/-- Strengthened per-room invariant used for the induction: member ids and
seat ids are duplicate-free, coincide as sets, and a retained room is
strictly below its target size (a room reaching it is deleted at once). -/
def RoomInvS (r : Room) : Prop :=
  r.sessions.Nodup ∧
  (r.seats.map Prod.fst).Nodup ∧
  (∀ i, i ∈ r.sessions ↔ i ∈ r.seats.map Prod.fst) ∧
  r.sessions.length < r.size

def ServerInvS (s : ChatServer) : Prop := ∀ p ∈ s.rooms, RoomInvS p.2

/-- `true` unless the message is a `Create` of target size below 2. -/
def sizeOkB : Msg → Bool
  | .create _ _ sz _ => 2 ≤ sz
  | _ => true

/-- Sample assignment with Merlin, Mordred and Assassin seated. -/
def sampleAssignment : Assignment :=
  ⟨[("a", Role.Merlin), ("b", Role.Mordred), ("c", Role.Assassin)]⟩

/-- A server with two connected sessions and a size-2 room holding
session 1, one join away from full. -/
def sampleServer : ChatServer :=
  ⟨[1, 2], [("7", ⟨[1], 2, [(1, "a")]⟩)]⟩

/-- Like `sampleServer` but the seated member has session id 0, the
broadcast skip sentinel. -/
def zeroIdServer : ChatServer :=
  ⟨[0, 1], [("7", ⟨[0], 2, [(0, "a")]⟩)]⟩

/-! ### Lemmas about the visibility computation -/

theorem filterSeats_le (f : Role → Bool) :
    ∀ (l : List (String × Role)) (k : Nat) (p : Nat × String),
      p ∈ filterSeats f k l → k ≤ p.1 := by
  intro l
  induction l with
  | nil => intro k p h; simp [filterSeats] at h
  | cons hd tl ih =>
    intro k p h
    obtain ⟨nm', r'⟩ := hd
    rw [filterSeats] at h
    by_cases hf : f r' = true
    · rw [if_pos hf] at h
      rcases List.mem_cons.mp h with heq | hmem
      · subst heq; exact Nat.le_refl _
      · exact Nat.le_of_succ_le (ih (k + 1) p hmem)
    · rw [if_neg hf] at h
      exact Nat.le_of_succ_le (ih (k + 1) p h)

theorem mem_filterSeats (f : Role → Bool) :
    ∀ (l : List (String × Role)) (k i : Nat) (nm : String),
      (i, nm) ∈ filterSeats f k l ↔
        ∃ r, k ≤ i ∧ l.get? (i - k) = some (nm, r) ∧ f r = true := by
  intro l
  induction l with
  | nil => intro k i nm; simp [filterSeats]
  | cons hd tl ih =>
    intro k i nm
    obtain ⟨nm', r'⟩ := hd
    constructor
    · intro hmem
      rw [filterSeats] at hmem
      have hsplit :
          ((i, nm) = (k, nm') ∧ f r' = true) ∨ (i, nm) ∈ filterSeats f (k + 1) tl := by
        by_cases hf : f r' = true
        · rw [if_pos hf] at hmem
          rcases List.mem_cons.mp hmem with heq | h
          · exact Or.inl ⟨heq, hf⟩
          · exact Or.inr h
        · rw [if_neg hf] at hmem; exact Or.inr hmem
      rcases hsplit with ⟨heq, hf⟩ | h
      · rw [Prod.mk.injEq] at heq
        obtain ⟨rfl, rfl⟩ := heq
        exact ⟨r', Nat.le_refl _, by simp, hf⟩
      · obtain ⟨r, hk1, hget, hfr⟩ := (ih (k + 1) i nm).mp h
        refine ⟨r, Nat.le_of_succ_le hk1, ?_, hfr⟩
        have hik : i - k = (i - (k + 1)) + 1 := by omega
        rw [hik]
        simpa using hget
    · rintro ⟨r, hki, hget, hfr⟩
      rw [filterSeats]
      rcases Nat.eq_or_lt_of_le hki with heq | hlt
      · subst heq
        simp only [Nat.sub_self, List.get?_cons_zero, Option.some.injEq,
          Prod.mk.injEq] at hget
        obtain ⟨rfl, rfl⟩ := hget
        rw [if_pos hfr]
        exact List.mem_cons_self _ _
      · have htl : (i, nm) ∈ filterSeats f (k + 1) tl := by
          refine (ih (k + 1) i nm).mpr ⟨r, hlt, ?_, hfr⟩
          have hik : i - k = (i - (k + 1)) + 1 := by omega
          rw [hik] at hget
          simpa using hget
        by_cases hf : f r' = true
        · rw [if_pos hf]; exact List.mem_cons_of_mem _ htl
        · rw [if_neg hf]; exact htl

theorem length_filterSeats (f : Role → Bool) :
    ∀ (l : List (String × Role)) (k : Nat),
      (filterSeats f k l).length = l.countP (fun p => f p.2) := by
  intro l
  induction l with
  | nil => intro k; simp [filterSeats]
  | cons hd tl ih =>
    intro k
    obtain ⟨nm', r'⟩ := hd
    rw [filterSeats]
    by_cases hf : f r' = true
    · rw [if_pos hf]; simp [List.countP_cons, hf, ih]
    · rw [if_neg hf]; simp [List.countP_cons, hf, ih]

theorem mem_filter_players (a : Assignment) (f : Role → Bool) (i : Nat) (nm : String) :
    (i, nm) ∈ a.filter_players f ↔
      ∃ r, a.players.get? i = some (nm, r) ∧ f r = true := by
  rw [Assignment.filter_players, mem_filterSeats]
  constructor
  · rintro ⟨r, -, hget, hf⟩
    exact ⟨r, by simpa using hget, hf⟩
  · rintro ⟨r, hget, hf⟩
    exact ⟨r, Nat.zero_le _, by simpa using hget, hf⟩

theorem merlinGoodPred (r : Role) :
    (decide (¬(r.alliance = Alliance.Spy ∧ r ≠ Role.Mordred)) = true) ↔
      (r.alliance = Alliance.Resistance ∨ r = Role.Mordred) := by
  cases r <;> decide

/-! ### Claim theorems about the assignment engine -/

/-- C1: for every `n` with `5 ≤ n ≤ 10`, `deal(n)` succeeds and returns
exactly `n` roles forming a permutation of the first `n` entries of the
fixed pool `ROLES`; for `n` outside the range it fails with the
invalid-player-count error.  (`deal` is pure: the error path constructs
only the error value, so nothing is mutated.) -/
theorem deal_spec (shuffle : List Role → List Role)
    (hs : ∀ l, (shuffle l).Perm l) (n : Nat) :
    (5 ≤ n → n ≤ 10 →
      ∃ rs, deal shuffle n = Except.ok rs ∧ rs.length = n ∧ rs.Perm (ROLES.take n)) ∧
    (n < 5 ∨ 10 < n →
      deal shuffle n = Except.error ("invalid player number: " ++ toString n)) := by
  have hup : UPPER_ROOM_SIZE = 10 := rfl
  have hlow : LOWER_ROOM_SIZE = 5 := rfl
  have hlen : ROLES.length = 10 := rfl
  constructor
  · intro h5 h10
    have hrange : ¬(n < LOWER_ROOM_SIZE ∨ n > UPPER_ROOM_SIZE) := by
      rw [hup, hlow]; omega
    refine ⟨shuffle (ROLES.take n), ?_, ?_, hs _⟩
    · rw [deal, if_neg hrange]
    · rw [(hs (ROLES.take n)).length_eq, List.length_take, hlen]
      omega
  · intro h
    have hrange : n < LOWER_ROOM_SIZE ∨ n > UPPER_ROOM_SIZE := by
      rw [hup, hlow]; omega
    rw [deal, if_pos hrange]

theorem deal_spec_witness :
    (∃ rs, deal (fun l => l) 7 = Except.ok rs ∧ rs.length = 7 ∧
      rs.Perm (ROLES.take 7)) ∧
    deal (fun l => l) 3 = Except.error ("invalid player number: " ++ toString 3) :=
  ⟨(deal_spec (fun l => l) (fun l => List.Perm.refl l) 7).1 (by decide) (by decide),
   (deal_spec (fun l => l) (fun l => List.Perm.refl l) 3).2 (Or.inl (by decide))⟩

/-- C2: Merlin's "appear good" list holds exactly the seats whose role is
not Spy-or-distinct-from-Mordred (all Resistance seats plus a Mordred
seat), the "appear evil" list exactly the Spy seats other than Mordred;
in particular the seat holding Mordred is never in the evil list. -/
theorem merlin_view_spec (a : Assignment) (good evil : List (Nat × String))
    (h : a.see_from_role Role.Merlin = SeeingBy.Merlin good evil) :
    (∀ i nm, (i, nm) ∈ good ↔
      ∃ r, a.players.get? i = some (nm, r) ∧
        (r.alliance = Alliance.Resistance ∨ r = Role.Mordred)) ∧
    (∀ i nm, (i, nm) ∈ evil ↔
      ∃ r, a.players.get? i = some (nm, r) ∧
        r.alliance = Alliance.Spy ∧ r ≠ Role.Mordred) ∧
    (∀ i nm, a.players.get? i = some (nm, Role.Mordred) → (i, nm) ∉ evil) := by
  rw [Assignment.see_from_role] at h
  injection h with hgood hevil
  subst hgood; subst hevil
  refine ⟨?_, ?_, ?_⟩
  · intro i nm
    rw [mem_filter_players]
    constructor
    · rintro ⟨r, hget, hf⟩
      exact ⟨r, hget, (merlinGoodPred r).mp hf⟩
    · rintro ⟨r, hget, hf⟩
      exact ⟨r, hget, (merlinGoodPred r).mpr hf⟩
  · intro i nm
    rw [mem_filter_players]
    constructor
    · rintro ⟨r, hget, hf⟩
      exact ⟨r, hget, of_decide_eq_true hf⟩
    · rintro ⟨r, hget, hf⟩
      exact ⟨r, hget, decide_eq_true hf⟩
  · intro i nm hget hmem
    rw [mem_filter_players] at hmem
    obtain ⟨r, hget', hf⟩ := hmem
    rw [hget] at hget'
    obtain ⟨-, rfl⟩ := Prod.mk.injEq .. ▸ Option.some.inj hget'
    exact (of_decide_eq_true hf).2 rfl

theorem merlin_view_spec_witness :
    (1, "b") ∉ [((2 : Nat), "c")] :=
  (merlin_view_spec sampleAssignment [(0, "a"), (1, "b")] [(2, "c")] rfl).2.2 1 "b" rfl

/-- C6: for each of Assassin, Morgana and Mordred the view is the list of
Spy-alliance seats excluding any seat holding Oberon. -/
theorem spy_view_spec (a : Assignment) (role : Role)
    (hrole : role = Role.Assassin ∨ role = Role.Morgana ∨ role = Role.Mordred) :
    ∃ l, a.see_from_role role = SeeingBy.Spy l ∧
      ∀ i nm, (i, nm) ∈ l ↔
        ∃ r, a.players.get? i = some (nm, r) ∧
          r.alliance = Alliance.Spy ∧ r ≠ Role.Oberon := by
  have hmem : ∀ i nm,
      (i, nm) ∈ a.filter_players
          (fun r => decide (r.alliance = Alliance.Spy ∧ r ≠ Role.Oberon)) ↔
        ∃ r, a.players.get? i = some (nm, r) ∧
          r.alliance = Alliance.Spy ∧ r ≠ Role.Oberon := by
    intro i nm
    rw [mem_filter_players]
    constructor
    · rintro ⟨r, hget, hf⟩; exact ⟨r, hget, of_decide_eq_true hf⟩
    · rintro ⟨r, hget, hf⟩; exact ⟨r, hget, decide_eq_true hf⟩
  rcases hrole with rfl | rfl | rfl
  · exact ⟨_, rfl, hmem⟩
  · exact ⟨_, rfl, hmem⟩
  · exact ⟨_, rfl, hmem⟩

theorem spy_view_spec_witness :
    ∃ l, sampleAssignment.see_from_role Role.Assassin = SeeingBy.Spy l ∧
      ∀ i nm, (i, nm) ∈ l ↔
        ∃ r, sampleAssignment.players.get? i = some (nm, r) ∧
          r.alliance = Alliance.Spy ∧ r ≠ Role.Oberon :=
  spy_view_spec sampleAssignment Role.Assassin (Or.inl rfl)

/-- C7: rendering a view for a viewer equals the plain rendering of the
view with every entry at the viewer's own seat replaced by the self token
"你" (other entries untouched), and the empty (`Normal`) view is revealed
as the explicit no-information message. -/
theorem render_view_spec (sb : SeeingBy) (viewer : Nat) :
    sb.text_from_player viewer = (sb.mapEntries (substEntry viewer)).text ∧
    revealHint SeeingBy.Normal viewer = "你没有提示" := by
  refine ⟨?_, rfl⟩
  have hcomp : ((fun p : Nat × String => p.2) ∘ substEntry viewer) =
      (fun p : Nat × String => if p.1 = viewer then "你" else p.2) := by
    funext p; simp [substEntry]
  cases sb <;>
    simp [SeeingBy.text_from_player, SeeingBy.text, SeeingBy.mapEntries,
      SeeingBy.text_with_formatter, List.map_map, hcomp]

/-- C10: every successful deal holds exactly one Merlin, Assassin,
Percival and Morgana; hence the Percival view of any assignment built by
`Assignment::new` from a valid-length name list has exactly two seats. -/
theorem percival_pair_spec (shuffle : List Role → List Role)
    (hs : ∀ l, (shuffle l).Perm l) :
    (∀ n, 5 ≤ n → n ≤ 10 →
      ∃ rs, deal shuffle n = Except.ok rs ∧
        rs.count Role.Merlin = 1 ∧ rs.count Role.Assassin = 1 ∧
        rs.count Role.Percival = 1 ∧ rs.count Role.Morgana = 1) ∧
    (∀ names : List String, 5 ≤ names.length → names.length ≤ 10 →
      ∃ a, Assignment.new shuffle names = Except.ok a ∧
        ∃ l, a.see_from_role Role.Percival = SeeingBy.Percival l ∧ l.length = 2) := by
  have hcount : ∀ n, 5 ≤ n → n ≤ 10 →
      (ROLES.take n).count Role.Merlin = 1 ∧ (ROLES.take n).count Role.Assassin = 1 ∧
      (ROLES.take n).count Role.Percival = 1 ∧ (ROLES.take n).count Role.Morgana = 1 := by
    intro n h5 h10
    interval_cases n <;> exact ⟨by decide, by decide, by decide, by decide⟩
  have hdeal : ∀ n, 5 ≤ n → n ≤ 10 →
      deal shuffle n = Except.ok (shuffle (ROLES.take n)) := by
    intro n h5 h10
    have hrange : ¬(n < LOWER_ROOM_SIZE ∨ n > UPPER_ROOM_SIZE) := by
      have hup : UPPER_ROOM_SIZE = 10 := rfl
      have hlow : LOWER_ROOM_SIZE = 5 := rfl
      rw [hup, hlow]; omega
    rw [deal, if_neg hrange]
  constructor
  · intro n h5 h10
    obtain ⟨h1, h2, h3, h4⟩ := hcount n h5 h10
    refine ⟨shuffle (ROLES.take n), hdeal n h5 h10, ?_, ?_, ?_, ?_⟩
    · rw [(hs _).count_eq, h1]
    · rw [(hs _).count_eq, h2]
    · rw [(hs _).count_eq, h3]
    · rw [(hs _).count_eq, h4]
  · intro names h5 h10
    set pred : Role → Bool :=
      fun r => match r with | .Merlin | .Morgana => true | _ => false with hpred
    have hcp : ∀ n, 5 ≤ n → n ≤ 10 → (ROLES.take n).countP pred = 2 := by
      intro n h5 h10
      interval_cases n <;> decide
    refine ⟨⟨names.zip (shuffle (ROLES.take names.length))⟩, ?_, ?_⟩
    · rw [Assignment.new, hdeal names.length h5 h10]
    · refine ⟨_, rfl, ?_⟩
      rw [Assignment.filter_players, length_filterSeats]
      have hlen : (shuffle (ROLES.take names.length)).length = names.length := by
        rw [(hs _).length_eq, List.length_take]
        have hlen10 : ROLES.length = 10 := rfl
        rw [hlen10]; omega
      have hsnd :
          List.map Prod.snd (names.zip (shuffle (ROLES.take names.length))) =
            shuffle (ROLES.take names.length) :=
        List.map_snd_zip _ _ (by rw [hlen])
      calc (names.zip (shuffle (ROLES.take names.length))).countP (fun p => pred p.2)
          = (List.map Prod.snd
              (names.zip (shuffle (ROLES.take names.length)))).countP pred := by
            rw [List.countP_map]; rfl
        _ = (shuffle (ROLES.take names.length)).countP pred := by rw [hsnd]
        _ = (ROLES.take names.length).countP pred := (hs _).countP_eq pred
        _ = 2 := hcp names.length h5 h10

theorem percival_pair_spec_witness :
    ∃ a, Assignment.new (fun l => l) ["p", "q", "r", "s", "t"] = Except.ok a ∧
      ∃ l, a.see_from_role Role.Percival = SeeingBy.Percival l ∧ l.length = 2 :=
  (percival_pair_spec (fun l => l) (fun l => List.Perm.refl l)).2
    ["p", "q", "r", "s", "t"] (by decide) (by decide)

/-! ### Lemmas about strings and the session command layer -/

theorem mk_data (s : String) : String.mk s.data = s := by cases s; rfl

theorem data_get?_left (s t : String) (i : Nat) (c : Char)
    (h : s.data.get? i = some c) : (s ++ t).data.get? i = some c := by
  obtain ⟨hlt, -⟩ := List.get?_eq_some.mp h
  rw [String.data_append, List.get?_append hlt, h]

theorem string_ne_of_nth (x y : String) (i : Nat) (cx cy : Char)
    (hx : x.data.get? i = some cx) (hy : y.data.get? i = some cy)
    (hne : cx ≠ cy) : x ≠ y := by
  intro h
  rw [h, hy] at hx
  exact hne (Option.some.inj hx).symm

theorem splitFirst_no_sep (sep : Char) :
    ∀ (l1 l2 : List Char), sep ∉ l1 →
      splitFirst sep (l1 ++ sep :: l2) = (l1, some l2) := by
  intro l1
  induction l1 with
  | nil => intro l2 h; simp [splitFirst]
  | cons c cs ih =>
    intro l2 h
    have hc : ¬ c = sep := by
      intro hh; exact h (hh ▸ List.mem_cons_self c cs)
    rw [List.cons_append, splitFirst, if_neg hc,
      ih l2 (fun hm => h (List.mem_cons_of_mem _ hm))]

theorem splitn2_create (s : String) : splitn2 ("/create " ++ s) = ["/create", s] := by
  rw [splitn2, String.data_append,
    show ("/create " : String).data = ['/', 'c', 'r', 'e', 'a', 't', 'e', ' '] from rfl,
    show (['/', 'c', 'r', 'e', 'a', 't', 'e', ' '] ++ s.data) =
      ['/', 'c', 'r', 'e', 'a', 't', 'e'] ++ (' ' :: s.data) from rfl,
    splitFirst_no_sep ' ' _ _ (by decide)]

theorem handleLine_create_arg (nameo : Option String) (s : String) :
    handleLine nameo ("/create " ++ s) =
      handleCommand nameo ("/create " ++ s) ["/create", s] := by
  have hh : ("/create " ++ s).data.head? = some '/' := by
    rw [String.data_append]; rfl
  rw [handleLine, if_pos hh, splitn2_create]

/-! ### Claim theorems about the coordinator and session layer -/

/-- C9: a `Disconnect` for a session id that is not (or no longer)
registered is a no-op: the session map and the room map are unchanged and
no message is sent. -/
theorem disconnect_idempotent (s : ChatServer) (id : Nat) (h : id ∉ s.sessions) :
    s.handleDisconnect id = (s, []) := by
  rw [ChatServer.handleDisconnect, if_neg h]

theorem disconnect_idempotent_witness :
    initialServer.handleDisconnect 5 = (initialServer, []) :=
  disconnect_idempotent initialServer 5 (by decide)

/-- C5 as stated is false: `send_message_to_user` delivers only to ids
present in the session map, so a `Join` from an unregistered session id
for a nonexistent room produces no error line at all. -/
theorem join_no_room_counterexample :
    lookupRoom initialServer.rooms "r" = none ∧
    (1, "!!! room not exist") ∉ (initialServer.handleJoin (fun l => l) 1 "a" "r").2 := by
  refine ⟨rfl, ?_⟩
  decide

/-- C5 (amended): a `Join` for a room name that is not open never mutates
the coordinator state, and — provided the joining session id is
registered in the session map — the caller receives exactly the
"room not exist" error line. -/
theorem join_no_room_spec (shuffle : List Role → List Role) (s : ChatServer)
    (id : Nat) (nm rn : String) (h : lookupRoom s.rooms rn = none) :
    (s.handleJoin shuffle id nm rn).1 = s ∧
    (id ∈ s.sessions →
      (s.handleJoin shuffle id nm rn).2 = [(id, "!!! room not exist")]) := by
  rw [ChatServer.handleJoin, if_pos h]
  exact ⟨rfl, fun hid => by simp [ChatServer.send_message_to_user, hid]⟩

theorem join_no_room_spec_witness :
    (sampleServer.handleJoin (fun l => l) 1 "a" "x").1 = sampleServer ∧
    (sampleServer.handleJoin (fun l => l) 1 "a" "x").2 = [(1, "!!! room not exist")] := by
  have h := join_no_room_spec (fun l => l) sampleServer 1 "a" "x" rfl
  exact ⟨h.1, h.2 (by decide)⟩

/-- C8: a `/create` line sends a `Create` to the coordinator exactly when
a display name is set and the single argument parses (as Rust `u8`)
within `[5, 10]`; each failure mode (missing name, missing size,
unparseable size, out-of-range size) yields its own reply, the four
replies are pairwise distinct, and no `Create` is sent in any failure
mode. -/
theorem create_command_spec (nameo : Option String) (s : String) :
    (handleLine nameo "/create" =
      (nameo, [SessOut.reply (match nameo with
        | none => "!!! session name is required"
        | some _ => "!!! size is required")])) ∧
    (handleLine none ("/create " ++ s) =
      (none, [SessOut.reply "!!! session name is required"])) ∧
    (∀ nm, nameo = some nm →
      (∀ v, parseU8 s = some v → 5 ≤ v → v ≤ 10 →
        handleLine nameo ("/create " ++ s) = (nameo, [SessOut.sendCreate v nm])) ∧
      (parseU8 s = none →
        handleLine nameo ("/create " ++ s) =
          (nameo, [SessOut.reply ("!!! invalid room size: " ++ s)])) ∧
      (∀ v, parseU8 s = some v → ¬(5 ≤ v ∧ v ≤ 10) →
        handleLine nameo ("/create " ++ s) =
          (nameo, [SessOut.reply ("!!! room size " ++ toString v ++
            " is not supported. it should be in range " ++
            toString LOWER_ROOM_SIZE ++ "-" ++ toString UPPER_ROOM_SIZE)]))) ∧
    (∀ v nm, SessOut.sendCreate v nm ∈ (handleLine nameo ("/create " ++ s)).2 ↔
      nameo = some nm ∧ parseU8 s = some v ∧ 5 ≤ v ∧ v ≤ 10) ∧
    (∀ v nm, SessOut.sendCreate v nm ∉ (handleLine nameo "/create").2) ∧
    (∀ v : Nat,
      ("!!! session name is required" : String) ≠ "!!! size is required" ∧
      ("!!! invalid room size: " ++ s) ≠ "!!! session name is required" ∧
      ("!!! invalid room size: " ++ s) ≠ "!!! size is required" ∧
      ("!!! room size " ++ toString v ++ " is not supported. it should be in range " ++
          toString LOWER_ROOM_SIZE ++ "-" ++ toString UPPER_ROOM_SIZE) ≠
        "!!! session name is required" ∧
      ("!!! room size " ++ toString v ++ " is not supported. it should be in range " ++
          toString LOWER_ROOM_SIZE ++ "-" ++ toString UPPER_ROOM_SIZE) ≠
        "!!! size is required" ∧
      ("!!! room size " ++ toString v ++ " is not supported. it should be in range " ++
          toString LOWER_ROOM_SIZE ++ "-" ++ toString UPPER_ROOM_SIZE) ≠
        ("!!! invalid room size: " ++ s)) := by
  have hnoarg : handleLine nameo "/create" =
      handleCommand nameo "/create" ["/create"] := by
    rw [handleLine,
      if_pos (show ("/create" : String).data.head? = some '/' from rfl),
      show splitn2 "/create" = ["/create"] from rfl]
  have hcnone : ∀ m : String, handleCommand none m ["/create", s] =
      (none, [SessOut.reply "!!! session name is required"]) := fun m => rfl
  have hcsome : ∀ (nm m : String), handleCommand (some nm) m ["/create", s] =
      (some nm,
        match parseU8 s with
        | some size =>
          if LOWER_ROOM_SIZE ≤ size ∧ size ≤ UPPER_ROOM_SIZE then
            [SessOut.sendCreate size nm]
          else
            [SessOut.reply ("!!! room size " ++ toString size ++
              " is not supported. it should be in range " ++
              toString LOWER_ROOM_SIZE ++ "-" ++ toString UPPER_ROOM_SIZE)]
        | none => [SessOut.reply ("!!! invalid room size: " ++ s)]) :=
    fun nm m => rfl
  have hr4 : ∀ v : Nat,
      ("!!! room size " ++ toString v ++ " is not supported. it should be in range " ++
        toString LOWER_ROOM_SIZE ++ "-" ++ toString UPPER_ROOM_SIZE).data.get? 4 =
        some 'r' := by
    intro v
    exact data_get?_left _ _ _ _ (data_get?_left _ _ _ _ (data_get?_left _ _ _ _
      (data_get?_left _ _ _ _ (data_get?_left _ _ 4 'r' rfl))))
  have hi4 : ("!!! invalid room size: " ++ s).data.get? 4 = some 'i' :=
    data_get?_left _ _ 4 'i' rfl
  refine ⟨?_, ?_, ?_, ?_, ?_, ?_⟩
  · rw [hnoarg]
    cases nameo <;> rfl
  · rw [handleLine_create_arg]; rfl
  · rintro nm rfl
    rw [handleLine_create_arg, hcsome]
    refine ⟨?_, ?_, ?_⟩
    · intro v hp h5 h10
      rw [hp]
      simp only
      rw [if_pos (show LOWER_ROOM_SIZE ≤ v ∧ v ≤ UPPER_ROOM_SIZE from ⟨h5, h10⟩)]
    · intro hp
      rw [hp]
    · intro v hp hout
      rw [hp]
      simp only
      rw [if_neg (show ¬(LOWER_ROOM_SIZE ≤ v ∧ v ≤ UPPER_ROOM_SIZE) from hout)]
  · intro v nm
    rw [handleLine_create_arg]
    cases nameo with
    | none =>
      rw [hcnone]
      simp
    | some nm' =>
      rw [hcsome]
      rcases hp : parseU8 s with - | w
      · simp
      · simp only
        by_cases hrange : 5 ≤ w ∧ w ≤ 10
        · rw [if_pos (show LOWER_ROOM_SIZE ≤ w ∧ w ≤ UPPER_ROOM_SIZE from hrange)]
          constructor
          · intro hmem
            simp only [List.mem_singleton, SessOut.sendCreate.injEq] at hmem
            obtain ⟨rfl, rfl⟩ := hmem
            exact ⟨rfl, rfl, hrange.1, hrange.2⟩
          · rintro ⟨heq, hpw, h5, h10⟩
            obtain rfl := Option.some.inj heq
            obtain rfl := Option.some.inj hpw
            simp
        · rw [if_neg (show ¬(LOWER_ROOM_SIZE ≤ w ∧ w ≤ UPPER_ROOM_SIZE) from hrange)]
          constructor
          · intro hmem; simp at hmem
          · rintro ⟨-, hpw, h5, h10⟩
            obtain rfl := Option.some.inj hpw
            exact absurd ⟨h5, h10⟩ hrange
  · intro v nm
    rw [hnoarg]
    cases nameo <;> simp [handleCommand]
  · intro v
    refine ⟨by decide, ?_, ?_, ?_, ?_, ?_⟩
    · exact string_ne_of_nth _ _ 4 'i' 's' hi4 rfl (by decide)
    · exact string_ne_of_nth _ _ 4 'i' 's' hi4 rfl (by decide)
    · exact string_ne_of_nth _ _ 4 'r' 's' (hr4 v) rfl (by decide)
    · exact string_ne_of_nth _ _ 4 'r' 's' (hr4 v) rfl (by decide)
    · exact string_ne_of_nth _ _ 4 'r' 'i' (hr4 v) hi4 (by decide)

theorem create_command_spec_witness :
    handleLine (some "ann") ("/create " ++ "7") = (some "ann", [SessOut.sendCreate 7 "ann"]) :=
  ((create_command_spec (some "ann") "7").2.2.1 "ann" rfl).1 7 rfl (by decide) (by decide)

/-! ### Lemmas about the coordinator's room map -/

theorem lookupRoom_mem (rooms : List (String × Room)) (n : String) (r : Room)
    (h : lookupRoom rooms n = some r) : (n, r) ∈ rooms := by
  unfold lookupRoom at h
  cases hf : rooms.find? (fun p => decide (p.1 = n)) with
  | none => rw [hf] at h; simp at h
  | some p =>
    rw [hf] at h
    obtain rfl : p.2 = r := Option.some.inj h
    have hmem := List.mem_of_find?_eq_some hf
    have hpred := List.find?_some hf
    simp only [decide_eq_true_eq] at hpred
    have hpr : (n, p.2) = p := Prod.ext_iff.mpr ⟨hpred.symm, rfl⟩
    rw [hpr]
    exact hmem

theorem lookupRoom_update (rooms : List (String × Room)) (n : String) (r r' : Room)
    (h : lookupRoom rooms n = some r) :
    lookupRoom (updateRoom rooms n r') n = some r' := by
  induction rooms with
  | nil => simp [lookupRoom] at h
  | cons q rest ih =>
    by_cases hq : q.1 = n
    · unfold lookupRoom updateRoom
      rw [List.map_cons, if_pos hq,
        List.find?_cons_of_pos _ (by simp)]
      rfl
    · unfold lookupRoom at h
      rw [List.find?_cons_of_neg _ (by simpa using hq)] at h
      unfold lookupRoom updateRoom
      rw [List.map_cons, if_neg hq,
        List.find?_cons_of_neg _ (by simpa using hq)]
      exact ih h

theorem lookupRoom_erase (rooms : List (String × Room)) (n : String) :
    lookupRoom (eraseRoom rooms n) n = none := by
  have hfind : (eraseRoom rooms n).find? (fun p => decide (p.1 = n)) = none := by
    rw [List.find?_eq_none]
    intro x hx
    have hxne := List.of_mem_filter hx
    simpa using hxne
  simp [lookupRoom, hfind]

theorem not_mem_map_eraseRoom (rooms : List (String × Room)) (n : String) :
    n ∉ (eraseRoom rooms n).map Prod.fst := by
  intro h
  obtain ⟨p, hp, hfst⟩ := List.mem_map.mp h
  have hpne := List.of_mem_filter hp
  simp only [decide_eq_true_eq] at hpne
  exact hpne hfst

theorem mem_updateRoom (rooms : List (String × Room)) (n : String) (r' : Room)
    (p : String × Room) (hp : p ∈ updateRoom rooms n r') :
    p = (n, r') ∨ p ∈ rooms := by
  obtain ⟨q, hq, hgq⟩ := List.mem_map.mp hp
  by_cases hqn : q.1 = n
  · rw [if_pos hqn] at hgq
    exact Or.inl hgq.symm
  · rw [if_neg hqn] at hgq
    exact Or.inr (hgq ▸ hq)

theorem mem_eraseRoom (rooms : List (String × Room)) (n : String)
    (p : String × Room) (hp : p ∈ eraseRoom rooms n) : p ∈ rooms ∧ p.1 ≠ n :=
  ⟨List.mem_of_mem_filter hp, by simpa using List.of_mem_filter hp⟩

theorem remove_user_rooms_mem (s : ChatServer) (id : Nat) (p : String × Room)
    (hp : p ∈ (s.remove_user_from_all_rooms id).1.rooms) :
    (p ∈ s.rooms ∧ id ∉ p.2.sessions) ∨
    (∃ q ∈ s.rooms, id ∈ q.2.sessions ∧ p = (q.1, removeFromRoom q.2 id)) := by
  simp only [ChatServer.remove_user_from_all_rooms] at hp
  have hp1 := List.mem_of_mem_filter hp
  obtain ⟨q, hq, hgq⟩ := List.mem_map.mp hp1
  by_cases hid : id ∈ q.2.sessions
  · rw [if_pos hid] at hgq
    exact Or.inr ⟨q, hq, hid, hgq.symm⟩
  · rw [if_neg hid] at hgq
    exact Or.inl ⟨hgq ▸ hq, hgq ▸ hid⟩

theorem RoomInvS_remove (r : Room) (id : Nat) (h : RoomInvS r)
    (hid : id ∈ r.sessions) :
    RoomInvS (removeFromRoom r id) ∧ id ∉ (removeFromRoom r id).sessions := by
  obtain ⟨hnd, hndseat, hset, hlen⟩ := h
  have hmemiff : ∀ i, i ∈ (removeFromRoom r id).sessions ↔ i ≠ id ∧ i ∈ r.sessions :=
    fun i => hnd.mem_erase_iff
  have hseatiff : ∀ i,
      i ∈ (removeFromRoom r id).seats.map Prod.fst ↔
        i ∈ r.seats.map Prod.fst ∧ i ≠ id := by
    intro i
    simp only [removeFromRoom, List.mem_map, List.mem_filter, decide_eq_true_eq]
    constructor
    · rintro ⟨q, ⟨hq, hqid⟩, rfl⟩
      exact ⟨⟨q, hq, rfl⟩, hqid⟩
    · rintro ⟨⟨q, hq, rfl⟩, hqid⟩
      exact ⟨q, ⟨hq, hqid⟩, rfl⟩
  refine ⟨⟨hnd.erase id, ?_, ?_, ?_⟩, ?_⟩
  · exact ((List.filter_sublist _).map Prod.fst).nodup hndseat
  · intro i
    rw [hmemiff, hseatiff, ← hset]
    tauto
  · have h1 : (removeFromRoom r id).sessions.length = r.sessions.length - 1 :=
      List.length_erase_of_mem hid
    have h2 : 0 < r.sessions.length := List.length_pos_of_mem hid
    have hsz : (removeFromRoom r id).size = r.size := rfl
    rw [h1, hsz]
    omega
  · intro hin
    exact ((hmemiff id).mp hin).1 rfl

theorem remove_user_invS (s : ChatServer) (id : Nat) (h : ServerInvS s) :
    ServerInvS (s.remove_user_from_all_rooms id).1 ∧
    ∀ p ∈ (s.remove_user_from_all_rooms id).1.rooms, id ∉ p.2.sessions := by
  constructor
  · intro p hp
    rcases remove_user_rooms_mem s id p hp with ⟨hmem, -⟩ | ⟨q, hq, hid, rfl⟩
    · exact h p hmem
    · exact (RoomInvS_remove q.2 id (h q hq) hid).1
  · intro p hp
    rcases remove_user_rooms_mem s id p hp with ⟨-, hnid⟩ | ⟨q, hq, hid, rfl⟩
    · exact hnid
    · exact (RoomInvS_remove q.2 id (h q hq) hid).2

theorem joinedRoom_invS (room : Room) (id : Nat) (nm : String)
    (h : RoomInvS room) (hid : id ∉ room.sessions) :
    (joinedRoom room id nm).sessions.Nodup ∧
    ((joinedRoom room id nm).seats.map Prod.fst).Nodup ∧
    (∀ i, i ∈ (joinedRoom room id nm).sessions ↔
      i ∈ (joinedRoom room id nm).seats.map Prod.fst) ∧
    (joinedRoom room id nm).sessions.length = room.sessions.length + 1 := by
  obtain ⟨hnd, hnds, hset, hlen⟩ := h
  have hsess : (joinedRoom room id nm).sessions = room.sessions ++ [id] := by
    simp [joinedRoom, insertSet, hid]
  have hidseat : id ∉ room.seats.map Prod.fst := fun hm => hid ((hset id).mpr hm)
  have hseats : (joinedRoom room id nm).seats.map Prod.fst =
      room.seats.map Prod.fst ++ [id] := by
    simp [joinedRoom]
  refine ⟨?_, ?_, ?_, ?_⟩
  · rw [hsess]; simp [List.nodup_append, hnd, hid]
  · rw [hseats]; simp [List.nodup_append, hnds, hidseat]
  · intro i
    rw [hsess, hseats]
    simp only [List.mem_append, List.mem_singleton]
    rw [hset i]
  · rw [hsess, List.length_append]; rfl

theorem handleJoin_invS (shuffle : List Role → List Role) (s : ChatServer)
    (id : Nat) (nm rn : String) (h : ServerInvS s) :
    ServerInvS (s.handleJoin shuffle id nm rn).1 := by
  obtain ⟨hs1, hfree⟩ := remove_user_invS s id h
  simp only [ChatServer.handleJoin]
  split
  · exact h
  · split
    · exact hs1
    · next room h1 =>
      have hrm : (rn, room) ∈ (s.remove_user_from_all_rooms id).1.rooms :=
        lookupRoom_mem _ _ _ h1
      have hrs : RoomInvS room := hs1 _ hrm
      have hidroom : id ∉ room.sessions := hfree _ hrm
      obtain ⟨jnd, jnds, jset, jlen⟩ := joinedRoom_invS room id nm hrs hidroom
      split
      · split
        all_goals {
          intro p hp
          obtain ⟨hp1, hpne⟩ := mem_eraseRoom _ _ _ hp
          rcases mem_updateRoom _ _ _ _ hp1 with rfl | hp2
          · exact absurd rfl hpne
          · exact hs1 p hp2 }
      · next hnf =>
        intro p hp
        rcases mem_updateRoom _ _ _ _ hp with rfl | hp2
        · refine ⟨jnd, jnds, jset, ?_⟩
          have hne : (joinedRoom room id nm).sessions.length ≠
              (joinedRoom room id nm).size := by
            intro heq
            exact hnf (by simpa [Room.is_full] using heq)
          have hszj : (joinedRoom room id nm).size = room.size := rfl
          have hlt : room.sessions.length < room.size := hrs.2.2.2
          rw [jlen] at hne ⊢
          rw [hszj] at hne ⊢
          omega
        · exact hs1 p hp2

theorem handleCreate_invS (s : ChatServer) (id : Nat) (nm : String)
    (size oracle : Nat) (h : ServerInvS s) (hsz : 2 ≤ size) :
    ServerInvS (s.handleCreate id nm size oracle).1 := by
  simp only [ChatServer.handleCreate]
  split
  · exact h
  · intro p hp
    rcases List.mem_append.mp hp with hp1 | hp2
    · exact (remove_user_invS s id h).1 p hp1
    · obtain rfl := List.mem_singleton.mp hp2
      refine ⟨by simp, by simp, by intro i; simp, ?_⟩
      simpa using hsz

theorem handleDisconnect_invS (s : ChatServer) (id : Nat) (h : ServerInvS s) :
    ServerInvS (s.handleDisconnect id).1 := by
  rw [ChatServer.handleDisconnect]
  split
  · exact (remove_user_invS _ id (fun p hp => h p hp)).1
  · exact h

theorem step_invS (shuffle : List Role → List Role) (s : ChatServer) (m : Msg)
    (h : ServerInvS s) (hm : sizeOkB m = true) :
    ServerInvS (step shuffle s m).1 := by
  cases m with
  | connect id => exact fun p hp => h p hp
  | disconnect id => exact handleDisconnect_invS s id h
  | listRooms => exact h
  | join id nm rn => exact handleJoin_invS shuffle s id nm rn h
  | create id nm sz o =>
    exact handleCreate_invS s id nm sz o h (by simpa [sizeOkB] using hm)

theorem foldl_invS (shuffle : List Role → List Role) :
    ∀ (msgs : List Msg) (s : ChatServer), ServerInvS s →
      (∀ m ∈ msgs, sizeOkB m = true) →
      ServerInvS (msgs.foldl (fun s m => (step shuffle s m).1) s) := by
  intro msgs
  induction msgs with
  | nil => intro s hs _; exact hs
  | cons m rest ih =>
    intro s hs hm
    rw [List.foldl_cons]
    exact ih _ (step_invS shuffle s m hs (hm m (List.mem_cons_self m rest)))
      (fun x hx => hm x (List.mem_cons_of_mem m hx))

/-- C4 as stated is false: the coordinator never validates a `Create`'s
target size (the session layer is trusted to), so a single `Create` of
size 0 reaches a state whose room holds one member, exceeding its target. -/
theorem room_invariant_counterexample :
    ∃ p ∈ (run (fun l => l) [Msg.create 1 "a" 0 5]).rooms,
      ¬ p.2.sessions.length ≤ p.2.size := by
  decide

/-- C4 (amended): in every state reachable from the empty initial state by
Connect, Disconnect, ListRooms, Join and Create messages in which every
Create carries a target size of at least 2 (in particular the sizes in
`[5, 10]` the session layer admits), every room has as many member ids as
seats, the same ids in both, and membership at most the target size. -/
theorem reachable_room_invariant (shuffle : List Role → List Role) (msgs : List Msg)
    (hsz : ∀ m ∈ msgs, sizeOkB m = true) :
    ∀ p ∈ (run shuffle msgs).rooms,
      p.2.sessions.length = p.2.seats.length ∧
      (∀ i, i ∈ p.2.sessions ↔ i ∈ p.2.seats.map Prod.fst) ∧
      p.2.sessions.length ≤ p.2.size := by
  intro p hp
  have hinit : ServerInvS initialServer := fun q hq => absurd hq (List.not_mem_nil q)
  have hs := foldl_invS shuffle msgs initialServer hinit hsz
  obtain ⟨hnd, hnds, hset, hlen⟩ := hs p hp
  refine ⟨?_, hset, Nat.le_of_lt hlen⟩
  have hperm : p.2.sessions.Perm (p.2.seats.map Prod.fst) :=
    (List.perm_ext_iff_of_nodup hnd hnds).mpr hset
  rw [hperm.length_eq, List.length_map]

/-- C3 as stated is false: `broadcast_message` always skips the sentinel
skip id 0, so when the filling join involves a member whose (rng-minted)
session id is 0, that member is part of the now-full room yet never
receives the room-full notice (while the joiner, id 1, does). -/
theorem join_full_counterexample :
    0 ∈ (joinedRoom ⟨[0], 2, [(0, "a")]⟩ 1 "b").sessions ∧
    (joinedRoom ⟨[0], 2, [(0, "a")]⟩ 1 "b").is_full = true ∧
    (1, "人已经凑齐") ∈ (zeroIdServer.handleJoin (fun l => l) 1 "b" "7").2 ∧
    (0, "人已经凑齐") ∉ (zeroIdServer.handleJoin (fun l => l) 1 "b" "7").2 := by
  decide

/-- C3 (amended): when a `Join` fills a room, the coordinator emits, in
this order: the leave-cascade notices, the "connected" broadcast, the
"joined" confirmation, the room-full notice — delivered to every member of
the filled room whose id is nonzero (0 is the broadcast skip sentinel) and
registered in the session map — and then the assignment messages (the
per-seat reveal on success, the failure broadcast on failure); the room is
deleted regardless of the assignment outcome, so its name is absent from
the resulting room map and from subsequent `ListRooms` results. -/
theorem join_fill_spec (shuffle : List Role → List Role) (s s1 s2 : ChatServer)
    (evs1 : List Event) (id : Nat) (nm rn : String) (room : Room)
    (h0 : ¬ lookupRoom s.rooms rn = none)
    (hrm : s.remove_user_from_all_rooms id = (s1, evs1))
    (h1 : lookupRoom s1.rooms rn = some room)
    (hfull : (joinedRoom room id nm).is_full = true)
    (hs2 : s2 = { s1 with rooms := updateRoom s1.rooms rn (joinedRoom room id nm) }) :
    lookupRoom (s.handleJoin shuffle id nm rn).1.rooms rn = none ∧
    rn ∉ (s.handleJoin shuffle id nm rn).1.listRooms ∧
    (∀ m ∈ (joinedRoom room id nm).sessions, m ≠ 0 → m ∈ s2.sessions →
      (m, "人已经凑齐") ∈ s2.broadcast_message rn "人已经凑齐" 0) ∧
    (s.handleJoin shuffle id nm rn).2 =
      evs1 ++ s2.broadcast_message rn (nm ++ " connected") id ++
        s2.send_message_to_user id "joined" ++
        s2.broadcast_message rn "人已经凑齐" 0 ++
        (match s2.assign_and_notify shuffle rn with
         | .ok aevs => aevs
         | .error e => s2.broadcast_message rn ("分配失败：" ++ e) 0) := by
  subst hs2
  have hupd : lookupRoom (updateRoom s1.rooms rn (joinedRoom room id nm)) rn =
      some (joinedRoom room id nm) := lookupRoom_update _ _ _ _ h1
  have hbc : ∀ m ∈ (joinedRoom room id nm).sessions, m ≠ 0 →
      m ∈ ({ s1 with rooms := updateRoom s1.rooms rn (joinedRoom room id nm) }
        : ChatServer).sessions →
      (m, "人已经凑齐") ∈
        ({ s1 with rooms := updateRoom s1.rooms rn (joinedRoom room id nm) }
          : ChatServer).broadcast_message rn "人已经凑齐" 0 := by
    intro m hm hm0 hms
    rw [ChatServer.broadcast_message]
    rw [show ({ s1 with rooms := updateRoom s1.rooms rn (joinedRoom room id nm) }
      : ChatServer).rooms = updateRoom s1.rooms rn (joinedRoom room id nm) from rfl, hupd]
    exact List.mem_filterMap.mpr ⟨m, hm, by rw [if_pos ⟨hm0, hms⟩]⟩
  rw [ChatServer.handleJoin, if_neg h0, hrm]
  simp only [h1, hfull, if_true]
  cases hassign : ({ s1 with rooms := updateRoom s1.rooms rn (joinedRoom room id nm) }
      : ChatServer).assign_and_notify shuffle rn with
  | ok aevs =>
    exact ⟨lookupRoom_erase _ _, not_mem_map_eraseRoom _ _, hbc, rfl⟩
  | error e =>
    exact ⟨lookupRoom_erase _ _, not_mem_map_eraseRoom _ _, hbc, rfl⟩

theorem join_fill_spec_witness :
    lookupRoom (sampleServer.handleJoin (fun l => l) 2 "b" "7").1.rooms "7" = none ∧
    "7" ∉ (sampleServer.handleJoin (fun l => l) 2 "b" "7").1.listRooms :=
  let h := join_fill_spec (fun l => l) sampleServer sampleServer
    { sampleServer with
        rooms := updateRoom sampleServer.rooms "7" (joinedRoom ⟨[1], 2, [(1, "a")]⟩ 2 "b") }
    [] 2 "b" "7" ⟨[1], 2, [(1, "a")]⟩ (by decide) (by decide) (by decide) (by decide) rfl
  ⟨h.1, h.2.1⟩

theorem reachable_room_invariant_witness :
    (Room.mk [1] 5 [(1, "a")]).sessions.length =
      (Room.mk [1] 5 [(1, "a")]).seats.length ∧
    (Room.mk [1] 5 [(1, "a")]).sessions.length ≤ (Room.mk [1] 5 [(1, "a")]).size :=
  let h := reachable_room_invariant (fun l => l)
    [Msg.connect 1, Msg.create 1 "a" 5 7] (by decide)
    ("7", Room.mk [1] 5 [(1, "a")]) (by decide)
  ⟨h.1, h.2.2⟩

end Avalon
